import Mathlib

/-!
Verification of the SF-AI-SQL-Demo pipeline (image validation, filename
sanitization, AI-query construction, and result normalization) against a
shallow Lean embedding of the Python sources.

Conventions of the embedding:
* Python strings are Lean `String`s (or `List Char` where character-level
  reasoning is needed); machine integers are `Nat`/`Int`.
* The float expression `size / (1024 * 1024)` compared against `10` or `3.75`
  is modelled over `ℚ`.  All quantities involved (`size : ℕ`, the power-of-two
  divisor, and the constant `3.75 = 15/4` with a power-of-two denominator) are
  exactly representable as IEEE doubles for any realistic size, so the rational
  comparison coincides with the float comparison performed by the code.
* Human-readable validation messages are modelled as tags (one per distinct
  message produced by the code); the exact interpolated text carries no logic.
* Dynamic (JSON-like) Python values are modelled by the inductive `PyVal`
  together with Python's truthiness.
-/

namespace Config

/-- `SUPPORTED_FORMATS` from `config.py` / `streamlit_app.py` (a Python set;
order is irrelevant, membership is what the code tests). -/
def SUPPORTED_FORMATS : List String := [".jpg", ".jpeg", ".png", ".gif", ".webp"]

/-- `MAX_SIZE_MB_GENERAL = 10` from `config.py`. -/
def MAX_SIZE_MB_GENERAL : ℚ := 10

/-- `MAX_SIZE_MB_CLAUDE = 3.75` from `config.py`. -/
def MAX_SIZE_MB_CLAUDE : ℚ := 3.75

/-- `MAX_RESOLUTION_CLAUDE = 8000` from `config.py`. -/
def MAX_RESOLUTION_CLAUDE : Nat := 8000

/-- `CLAUDE_MODELS` from `config.py` (identical list in `streamlit_app.py`). -/
def CLAUDE_MODELS : List String :=
  ["claude-3.5-sonnet", "claude-3.7-sonnet", "claude-4-sonnet", "claude-4-opus"]

end Config

/-- Dynamic Python values as they occur in the parsed AI responses:
`None`, booleans, integers, strings, lists, and string-keyed dicts
(a dict is a key/value association list; keys are unique in Python). -/
inductive PyVal where
  | none
  | pBool (b : Bool)
  | pInt (n : Int)
  | pStr (s : String)
  | pList (l : List PyVal)
  | pDict (entries : List (String × PyVal))

/-- Python truthiness (`bool(v)`) for the values of `PyVal`:
`None`, `False`, `0`, `""`, `[]` and `{}` are falsy. -/
def PyVal.truthy : PyVal → Bool
  | .none => false
  | .pBool b => b
  | .pInt n => n != 0
  | .pStr s => s != ""
  | .pList l => !l.isEmpty
  | .pDict entries => !entries.isEmpty

/-- `ensure_list` from `streamlit_app.py` (lines 456-468):
`None → []`; a list is returned unchanged; a dict becomes
`[v for k, v in sorted(value.items())]` (Python's `sorted` on pairs orders by
key first, and dict keys are unique, so this is a stable sort by key); a string
is wrapped in a singleton; anything else falls through to `return []`. -/
def ensure_list (value : PyVal) : List PyVal :=
  match value with
  | .none => []
  | .pList l => l
  | .pDict entries => (entries.mergeSort (fun a b => a.1 ≤ b.1)).map Prod.snd
  | .pStr s => [.pStr s]
  | _ => []

/-! ## Python filename primitives -/

/-- `os.path.splitext` (posix) on a character list: split off the extension at
the last `'.'`, provided that dot lies after the last path separator and the
portion of the basename before it is not entirely dots (so dotfiles like
`".bashrc"` have no extension).  This mirrors `posixpath.splitext`: its
`rfind`-based index arithmetic is rephrased here by scanning the reversed
list. -/
def pySplitext (s : List Char) : List Char × List Char :=
  let r := s.reverse
  let afterDot := r.takeWhile (· != '.')
  if afterDot.length == r.length then (s, [])
  else if afterDot.contains '/' then (s, [])
  else
    let baseBefore := (r.drop (afterDot.length + 1)).takeWhile (· != '/')
    if baseBefore.all (· == '.') then (s, [])
    else (s.take (s.length - afterDot.length - 1), '.' :: afterDot.reverse)

/-- The ASCII fragment of Python's regex class `\w` (`[a-zA-Z0-9_]`).
Python's `\w` additionally matches non-ASCII word characters; theorems about
`sanitize_filename` therefore carry an ASCII hypothesis on the input, under
which this model agrees with `re`. -/
def isWordChar (c : Char) : Bool := c.isAlphanum || c == '_'

/-- `re.sub(r'[^\w\-]', '_', name)`: every character that is neither a word
character nor a hyphen becomes an underscore. -/
def subNonWord (s : List Char) : List Char :=
  s.map (fun c => if isWordChar c || c == '-' then c else '_')

/-- `re.sub(r'_+', '_', name)`: collapse each maximal run of underscores to a
single underscore, phrased as deduplication of adjacent underscores. -/
def collapseUnderscores : List Char → List Char
  | [] => []
  | [c] => [c]
  | c₁ :: c₂ :: rest =>
    if c₁ == '_' && c₂ == '_' then collapseUnderscores (c₂ :: rest)
    else c₁ :: collapseUnderscores (c₂ :: rest)

/-- Removal of all trailing underscores (the right half of
`name.strip('_')`), by structural recursion: a character is kept iff
something after it survives or it is not an underscore. -/
def stripTrailU : List Char → List Char
  | [] => []
  | c :: rest =>
    let r := stripTrailU rest
    if c == '_' && r.isEmpty then [] else c :: r

/-- `name.strip('_')`: drop all leading and all trailing underscores. -/
def stripUnderscores (s : List Char) : List Char :=
  stripTrailU (s.dropWhile (· == '_'))

/-- `AzureBlobUploader.sanitize_filename` from `azure_uploader.py`
(lines 20-49): split off the extension, replace non-word/non-hyphen characters
of the name by underscores, collapse runs of underscores, trim underscores at
both ends, lower-case the extension, and reassemble. -/
def sanitize_filename (filename : String) : String :=
  let parts := pySplitext filename.toList
  let name := stripUnderscores (collapseUnderscores (subNonWord parts.1))
  let ext := parts.2.map Char.toLower
  String.mk (name ++ ext)

/-! ## Image validation -/

/-- A Streamlit `UploadedFile` as far as validation observes it: its name, its
size in bytes, and the result of attempting `PIL.Image.open` on its bytes
(`some (width, height)` when the bytes decode, `none` when decoding raises). -/
structure UploadedFile where
  name : String
  size : Nat
  image : Option (Nat × Nat)

/-- The distinct validation failure messages of
`ImageValidator.validate_image` (`validators.py`), as tags. -/
inductive VError where
  | unsupportedFormat
  | fileTooLarge
  | resolutionExceeded
  | cannotReadImage
deriving DecidableEq

namespace ImageValidator

/-- `ImageValidator.validate_image` from `validators.py` (lines 19-68): the
extension (via `os.path.splitext`, lower-cased) must be in the supported set;
the size in MB must not exceed the model-class limit; for Claude-class models
the image is decoded and both dimensions are checked (a decoding failure is
itself recorded).  All violations are accumulated in `errors`; the function
returns `(False, "\n".join(errors))` on any violation and `(True, None)`
otherwise — modelled as the list of violation tags in order. -/
def validate_image (f : UploadedFile) (model_name : String) : Bool × List VError :=
  let file_ext := String.mk ((pySplitext f.name.toList).2.map Char.toLower)
  let formatErrors : List VError :=
    if file_ext ∈ Config.SUPPORTED_FORMATS then [] else [.unsupportedFormat]
  let file_size_mb : ℚ := (f.size : ℚ) / (1024 * 1024)
  let is_claude := model_name ∈ Config.CLAUDE_MODELS
  let max_size := if is_claude then Config.MAX_SIZE_MB_CLAUDE else Config.MAX_SIZE_MB_GENERAL
  let sizeErrors : List VError := if file_size_mb > max_size then [.fileTooLarge] else []
  let resolutionErrors : List VError :=
    if is_claude then
      match f.image with
      | some (w, h) =>
        if w > Config.MAX_RESOLUTION_CLAUDE ∨ h > Config.MAX_RESOLUTION_CLAUDE then
          [.resolutionExceeded]
        else []
      | none => [.cannotReadImage]
    else []
  let errors := formatErrors ++ sizeErrors ++ resolutionErrors
  if errors.isEmpty then (true, []) else (false, errors)

end ImageValidator

namespace StreamlitApp

/-- Outcomes of the duplicated `validate_image` in `streamlit_app.py`: it
returns a single message (the first failure, or the success message). -/
inductive VMsg where
  | unsupportedFormat
  | fileTooLarge
  | resolutionExceeded
  | cannotReadImage
  | validationPassed
deriving DecidableEq

/-- `validate_image` from `streamlit_app.py` (lines 43-69).  Unlike the
`validators.py` version it RETURNS AT THE FIRST FAILED CHECK, and it computes
the extension as `uploaded_file.name.split('.')[-1].lower()` prefixed with a
dot. -/
def validate_image (f : UploadedFile) (model_name : String) : Bool × VMsg :=
  let file_ext := String.mk (((f.name.toList.splitOn '.').getLastD []).map Char.toLower)
  if ("." ++ file_ext) ∉ Config.SUPPORTED_FORMATS then (false, .unsupportedFormat)
  else
    let file_size_mb : ℚ := (f.size : ℚ) / (1024 * 1024)
    let is_claude := model_name ∈ Config.CLAUDE_MODELS
    let max_size := if is_claude then Config.MAX_SIZE_MB_CLAUDE else Config.MAX_SIZE_MB_GENERAL
    if file_size_mb > max_size then (false, .fileTooLarge)
    else if is_claude then
      match f.image with
      | some (w, h) =>
        if w > Config.MAX_RESOLUTION_CLAUDE ∨ h > Config.MAX_RESOLUTION_CLAUDE then
          (false, .resolutionExceeded)
        else (true, .validationPassed)
      | none => (false, .cannotReadImage)
    else (true, .validationPassed)

end StreamlitApp

/-! ## Escaping and the AI analysis query builders -/

/-- Python\'s `s.replace("\'", "\'\'")`: since the pattern is a single character,
substring replacement is exactly the character-wise expansion of each single
quote into two. -/
def pyEscapeQuotes (s : String) : String :=
  String.mk (s.toList.flatMap (fun c => if c == '\'' then ['\'', '\''] else [c]))

namespace SnowflakeAIAnalyzer

/-- The f-string of `SnowflakeAIAnalyzer.analyze_image`
(`snowflake_analyzer.py` lines 69-107) as its list of pieces, literal text
alternating with the interpolated expressions, in source order.  The source
computes `escaped_prompt = prompt.replace("\'", "\'\'")` but interpolates the
RAW `prompt` into the `PROMPT(...)` call (entry 11); `escaped_file_path` is
interpolated at both of its sites (entries 3 and 7). -/
def analyze_image_query_parts (stage_name file_path prompt model : String) :
    List String :=
  let escaped_prompt := pyEscapeQuotes prompt
  let escaped_file_path := pyEscapeQuotes file_path
  let stage_ref := "@" ++ stage_name
  let _unused_escaped_prompt := escaped_prompt
  ["\n            WITH input_pics AS (\n                SELECT\n                    TO_FILE(\'",
   stage_ref,
   "\', \'",
   escaped_file_path,
   "\') AS img,\n                    d.RELATIVE_PATH AS container_relpath,\n                    d.SIZE AS file_size_bytes,\n                    TO_TIMESTAMP_NTZ(d.LAST_MODIFIED) AS last_modified\n                FROM DIRECTORY(\'",
   stage_ref,
   "\') d\n                WHERE d.RELATIVE_PATH = \'",
   escaped_file_path,
   "\'\n            ),\n            ai_analysis AS (\n                SELECT\n                    container_relpath,\n                    file_size_bytes,\n                    last_modified,\n                    PARSE_JSON(\n                        AI_COMPLETE(\n                            model => \'",
   model,
   "\',\n                            prompt => PROMPT(\'",
   prompt,
   "\', img)\n                        )\n                    ) AS result_json\n                FROM input_pics\n            )\n            SELECT\n                container_relpath,\n                file_size_bytes,\n                last_modified,\n                result_json\n            FROM ai_analysis;\n            "]

/-- The query text built by `SnowflakeAIAnalyzer.analyze_image`: the
f-string is the concatenation of its pieces. -/
def analyze_image_query (stage_name file_path prompt model : String) : String :=
  String.join (analyze_image_query_parts stage_name file_path prompt model)

end SnowflakeAIAnalyzer

namespace StreamlitApp

/-- `TEMP_STAGE_NAME` from `streamlit_app.py`. -/
def TEMP_STAGE_NAME : String := "temp_upload_stage"

/-- The f-string of the `INSERT ... WITH ... AI_COMPLETE` query built by
`analyze_with_uploaded_file` (`streamlit_app.py` lines 116-283) as its list
of pieces, literal text alternating with the interpolated expressions, in
source order.  `temp_filename = f"temp_{timestamp}_{filename}"` is the name
the file is uploaded under, and `stage_file_path = temp_filename`.  The
source interpolates `escaped_filename` (entry 3) and `escaped_prompt`
(entry 7), but interpolates the RAW `stage_file_path` into `TO_FILE`
(entry 11) and into the `WHERE` clause (entry 15).  The doubled braces
`{{`/`}}` of the f-string denote literal braces in the query text. -/
def analyze_query_parts (timestamp filename prompt model : String) :
    List String :=
  let temp_filename := "temp_" ++ timestamp ++ "_" ++ filename
  let stage_file_path := temp_filename
  let escaped_prompt := pyEscapeQuotes prompt
  let escaped_filename := pyEscapeQuotes filename
  ["\n        INSERT INTO AI_IMAGE_RUN_LOG (\n          run_ts, user_name,\n          stage_name, image_name, model_name,\n          content_type, file_size_bytes, last_modified, container_relpath,\n          ai_calls, result_json\n        )\n        WITH input_pics AS (\n            SELECT\n                \'@",
   TEMP_STAGE_NAME,
   "\'                    AS stage_name,\n                \'",
   escaped_filename,
   "\'                    AS image_name,\n                \'",
   model,
   "\'                               AS model_name,\n                \'",
   escaped_prompt,
   "\'                      AS ai_complete_prompt_tmpl,\n                d.RELATIVE_PATH                         AS container_relpath,\n                d.SIZE                                  AS file_size_bytes,\n                TO_TIMESTAMP_NTZ(d.LAST_MODIFIED)       AS last_modified,\n                TO_FILE(\'@",
   TEMP_STAGE_NAME,
   "\', \'",
   stage_file_path,
   "\') AS img\n            FROM DIRECTORY(\'@",
   TEMP_STAGE_NAME,
   "\') d\n            WHERE d.RELATIVE_PATH = \'",
   stage_file_path,
   "\'\n            LIMIT 1\n        ),\n        classify_pics AS (\n            SELECT\n                *,\n                ARRAY_CONSTRUCT(img)[0][\'CONTENT_TYPE\'] AS content_type,\n                OBJECT_CONSTRUCT(\n                  \'ai_complete\', OBJECT_CONSTRUCT(\n                    \'prompt\', ai_complete_prompt_tmpl,\n                    \'model\',  model_name\n                  )\n                ) AS ai_calls\n            FROM input_pics\n        ),\n        assembled AS (\n            SELECT\n                *,\n                CURRENT_TIMESTAMP()                     AS run_ts,\n                CURRENT_USER()                          AS user_name,\n                PARSE_JSON(\n                    AI_COMPLETE(\n                            model => \'",
   model,
   "\',\n                            prompt => PROMPT(ai_complete_prompt_tmpl, img),\n                            response_format => \x7b\n                                \'type\':\'json\',\n                                \'schema\':\x7b\n                                    \'type\':\'object\',\n                                    \'properties\':\x7b\n                                        \'material\':\x7b\'type\':\'string\'\x7d, \n                                        \'colour\':\x7b\'type\':\'string\'\x7d, \n                                        \'distinguishing_features\':\x7b\'type\':\'string\'\x7d, \n                                        \'is_cracked\':\x7b\'type\':\'string\'\x7d,  \n                                        \'is_defective\':\x7b\'type\':\'string\'\x7d, \n                                        \'defect_severity\':\x7b\'type\':\'string\'\x7d, \n                                        \'defects\':\x7b\'type\':\'string\'\x7d, \n                                        \'repairs_required\':\x7b\'type\':\'string\'\x7d, \n                                        \'estimated_time_repairs_required\':\x7b\'type\':\'string\'\x7d, \n                                        \'confidence_level_on_material\':\x7b\'type\':\'string\'\x7d, \n                                        \'estimated_cost_of_repairs\':\x7b\'type\':\'string\'\x7d\n                                    \x7d,\n                                    \'required\':[\'material\',\n                                                \'colour\',\n                                                \'distinguishing_features\',\n                                                \'is_cracked\',\n                                                \'is_defective\',\n                                                \'defect_severity\',\n                                                \'defects\',\n                                                \'repairs_required\',\n                                                \'estimated_time_repairs_required\',\n                                                \'confidence_level_on_material\',\n                                                \'estimated_cost_of_repairs\'\n                                                ],\n                                    \'additionalProperties\':false\n                                \x7d\n                            \x7d,\n                            show_details => true\n                            )\n                    ) AS result_json\n            FROM classify_pics\n        )\n        SELECT\n          run_ts, user_name,\n          stage_name, image_name, model_name,\n          content_type, file_size_bytes, last_modified, container_relpath,\n          ai_calls, result_json\n        FROM assembled;\n        "]

/-- The query text built by `analyze_with_uploaded_file`: the f-string is
the concatenation of its pieces. -/
def analyze_query (timestamp filename prompt model : String) : String :=
  String.join (analyze_query_parts timestamp filename prompt model)

end StreamlitApp

/-! ## `SnowflakeAIAnalyzer.analyze_image`: control flow around the query -/

namespace SnowflakeAIAnalyzer

/-- One row as returned by `cursor.fetchone()` for the analysis query:
`(container_relpath, file_size_bytes, last_modified, result_json)`.
`last_modified` is `none` for SQL NULL (falsy in Python); `result_json` is the
parsed VARIANT payload. -/
structure FetchRow where
  container_relpath : String
  file_size_bytes : Int
  last_modified : Option String
  result_json : PyVal

/-- What `cursor.execute(query); cursor.fetchone()` can do, as an oracle:
raise a `ProgrammingError`, raise any other exception, or complete with
`fetchone`'s result (`none` when no row is available). -/
inductive QueryOutcome where
  | sqlError (e : String)
  | otherError (e : String)
  | fetched (row : Option FetchRow)

/-- Observable completion of a Python call: a returned `(success, value)`
pair, or an uncaught exception escaping the call. -/
inductive PyOutcome where
  | ret (success : Bool) (value : PyVal)
  | exn (name : String)

/-- The `response_with_metadata` dict assembled on the success path of
`analyze_image` (`snowflake_analyzer.py` lines 120-127);
`str(last_modified) if last_modified else None` is modelled by reusing the
timestamp's string form. -/
def response_with_metadata (row : FetchRow) : PyVal :=
  .pDict
    [("ai_result", row.result_json),
     ("metadata", .pDict
       [("file_path", .pStr row.container_relpath),
        ("file_size_bytes", .pInt row.file_size_bytes),
        ("last_modified",
          match row.last_modified with
          | some s => .pStr s
          | Option.none => .none)])]

/-- `SnowflakeAIAnalyzer.analyze_image` (`snowflake_analyzer.py` lines 49-138)
as a function of its environment: `connection` is the truthiness of
`self.connection` on entry, `connect_result` is what `self.connect()` would
return if called, and `query` is the oracle for execute/fetch.

The body runs inside `try ... except ProgrammingError ... except Exception ...
finally: if cursor: cursor.close()`.  The model returns the body's outcome
paired with whether the local variable `cursor` was ever assigned; the
`finally` clause then reads `cursor`, which raises a `NameError` (replacing
any pending return) precisely when the early-return path
`return False, msg` after a failed `connect()` skipped the assignment. -/
def analyze_image_run (connection : Bool) (connect_result : Bool × String)
    (query : QueryOutcome) : PyOutcome :=
  let body : PyOutcome × Bool :=
    if !connection && !connect_result.1 then
      (.ret false (.pStr connect_result.2), false)
    else
      let result : PyOutcome :=
        match query with
        | .sqlError e => .ret false (.pStr ("❌ Snowflake SQL error: " ++ e))
        | .otherError e => .ret false (.pStr ("❌ Analysis error: " ++ e))
        | .fetched Option.none => .ret false (.pStr "❌ No result returned from Snowflake")
        | .fetched (some row) =>
          if !row.result_json.truthy then
            .ret false (.pStr "❌ Snowflake returned empty result")
          else
            .ret true (response_with_metadata row)
      (result, true)
  if body.2 then body.1 else .exn "NameError"

end SnowflakeAIAnalyzer

/-- No two adjacent underscores occur in the list. -/
def noDoubleU : List Char → Bool
  | c₁ :: c₂ :: rest => !(c₁ == '_' && c₂ == '_') && noDoubleU (c₂ :: rest)
  | _ => true

/-! ## Theorems -/

/-- C7: `ensure_list` is idempotent — normalizing an already-normalized
sequence (which re-enters through the `isinstance(value, list)` branch)
yields the same sequence. -/
theorem ensure_list_idempotent (v : PyVal) :
    ensure_list (PyVal.pList (ensure_list v)) = ensure_list v := rfl

/-- C10: a value that is neither `None`, a list, a mapping, nor a string —
an integer or a boolean — falls through every `isinstance` branch of
`ensure_list` and is mapped to the empty list, not wrapped in a singleton. -/
theorem ensure_list_drops_nonstring_scalars :
    (∀ n : Int, ensure_list (PyVal.pInt n) = []) ∧
    (∀ b : Bool, ensure_list (PyVal.pBool b) = []) ∧
    (∀ n : Int, ensure_list (PyVal.pInt n) ≠ [PyVal.pInt n]) ∧
    (∀ b : Bool, ensure_list (PyVal.pBool b) ≠ [PyVal.pBool b]) :=
  ⟨fun _ => rfl, fun _ => rfl, fun _ => by simp [ensure_list], fun _ => by simp [ensure_list]⟩

/-- C5: `ensure_list` maps `None` to the empty sequence, a mapping to its
values listed in an order in which the keys are sorted (a permutation of the
entries that is pairwise-ordered by key, projected to its values), a string
to the one-element sequence holding it, and a sequence to itself. -/
theorem ensure_list_normalization :
    ensure_list PyVal.none = [] ∧
    (∀ l : List PyVal, ensure_list (PyVal.pList l) = l) ∧
    (∀ s : String, ensure_list (PyVal.pStr s) = [PyVal.pStr s]) ∧
    (∀ entries : List (String × PyVal),
      ∃ sortedEntries : List (String × PyVal),
        entries.Perm sortedEntries ∧
        sortedEntries.Pairwise (fun a b => a.1 ≤ b.1) ∧
        ensure_list (PyVal.pDict entries) = sortedEntries.map Prod.snd) := by
  refine ⟨rfl, fun _ => rfl, fun _ => rfl, fun entries => ?_⟩
  refine ⟨entries.mergeSort (fun a b => a.1 ≤ b.1), ?_, ?_, rfl⟩
  · exact (List.mergeSort_perm entries _).symm
  · have htrans : ∀ a b c : String × PyVal,
        (decide (a.1 ≤ b.1)) = true → (decide (b.1 ≤ c.1)) = true →
          (decide (a.1 ≤ c.1)) = true := by
      intro a b c hab hbc
      rw [decide_eq_true_eq] at hab hbc ⊢
      exact le_trans hab hbc
    have htotal : ∀ a b : String × PyVal,
        ((decide (a.1 ≤ b.1)) || (decide (b.1 ≤ a.1))) = true := by
      intro a b
      rcases le_total a.1 b.1 with h | h <;> simp [h]
    exact (List.sorted_mergeSort htrans htotal entries).imp
      (fun hab => decide_eq_true_eq.mp hab)

/-- C8: when `analyze_image` starts with no established connection and the
internal `connect()` attempt fails, the pending `return False, msg` is
replaced by an uncaught `NameError`: the `finally` block reads the local
variable `cursor`, which was never assigned on this path.  The call therefore
raises instead of returning any `(success, value)` pair. -/
theorem analyze_image_connect_failure_raises (msg : String)
    (q : SnowflakeAIAnalyzer.QueryOutcome) :
    SnowflakeAIAnalyzer.analyze_image_run false (false, msg) q =
        SnowflakeAIAnalyzer.PyOutcome.exn "NameError" ∧
    ∀ (b : Bool) (v : PyVal),
      SnowflakeAIAnalyzer.analyze_image_run false (false, msg) q ≠
        SnowflakeAIAnalyzer.PyOutcome.ret b v := by
  have h1 : SnowflakeAIAnalyzer.analyze_image_run false (false, msg) q =
      SnowflakeAIAnalyzer.PyOutcome.exn "NameError" := rfl
  refine ⟨h1, fun b v hbv => ?_⟩
  rw [h1] at hbv
  exact SnowflakeAIAnalyzer.PyOutcome.noConfusion hbv

/-- C4: once the analysis query is issued (the connection was already
established, or the internal `connect()` succeeded): zero fetched rows yields
the failure `"❌ No result returned from Snowflake"`; a fetched row whose
`result_json` payload is falsy (null/empty) yields the distinct failure
`"❌ Snowflake returned empty result"`; and the call succeeds exactly when one
row with a truthy payload is fetched, returning it with its metadata. -/
theorem analyze_image_row_handling (connection : Bool) (cr : Bool × String)
    (row? : Option SnowflakeAIAnalyzer.FetchRow)
    (h : connection = true ∨ cr.1 = true) :
    (row? = Option.none →
      SnowflakeAIAnalyzer.analyze_image_run connection cr (.fetched row?) =
        .ret false (.pStr "❌ No result returned from Snowflake")) ∧
    (∀ row, row? = some row → row.result_json.truthy = false →
      SnowflakeAIAnalyzer.analyze_image_run connection cr (.fetched row?) =
        .ret false (.pStr "❌ Snowflake returned empty result")) ∧
    (∀ row, row? = some row → row.result_json.truthy = true →
      SnowflakeAIAnalyzer.analyze_image_run connection cr (.fetched row?) =
        .ret true (SnowflakeAIAnalyzer.response_with_metadata row)) ∧
    ((∃ row, row? = some row ∧ row.result_json.truthy = true) ↔
      (∃ v, SnowflakeAIAnalyzer.analyze_image_run connection cr (.fetched row?) =
        .ret true v)) := by
  have hguard : (!connection && !cr.1) = false := by
    rcases h with h | h <;> simp [h]
  refine ⟨?_, ?_, ?_, ?_, ?_⟩
  · rintro rfl
    simp [SnowflakeAIAnalyzer.analyze_image_run, hguard]
  · rintro row rfl htr
    simp [SnowflakeAIAnalyzer.analyze_image_run, hguard, htr]
  · rintro row rfl htr
    simp [SnowflakeAIAnalyzer.analyze_image_run, hguard, htr]
  · rintro ⟨row, rfl, htr⟩
    refine ⟨SnowflakeAIAnalyzer.response_with_metadata row, ?_⟩
    simp [SnowflakeAIAnalyzer.analyze_image_run, hguard, htr]
  · rintro ⟨v, hv⟩
    rcases row? with _ | row
    · simp [SnowflakeAIAnalyzer.analyze_image_run, hguard] at hv
    · rcases htr : row.result_json.truthy with _ | _
      · simp [SnowflakeAIAnalyzer.analyze_image_run, hguard, htr] at hv
      · exact ⟨row, rfl, htr⟩

/-- Witness for C4 at a concrete successful fetch: connection already
established, one row with a non-empty payload. -/
theorem analyze_image_row_handling_witness :
    SnowflakeAIAnalyzer.analyze_image_run true (true, "")
        (.fetched (some ⟨"images/a.jpg", 17, Option.none, PyVal.pStr "x"⟩)) =
      .ret true (SnowflakeAIAnalyzer.response_with_metadata
        ⟨"images/a.jpg", 17, Option.none, PyVal.pStr "x"⟩) :=
  (analyze_image_row_handling true (true, "") _ (Or.inl rfl)).2.2.1 _ rfl rfl

/-- C1: status of single-quote doubling in the two analysis-query builders.
In `SnowflakeAIAnalyzer.analyze_image` the path is embedded escaped at both
of its sites (entries 3 and 7), but the `PROMPT(...)` call embeds the RAW
prompt (entry 11 between the literal delimiters of entries 10 and 12), even
though `escaped_prompt` is computed.  In `analyze_with_uploaded_file` the
prompt is embedded escaped (entry 7), but `TO_FILE` and the `WHERE` clause
embed the RAW stage path `temp_{timestamp}_{filename}` (entry 15 after the
literal delimiter of entry 14).  The final conjuncts show escaping is not
the identity on the failing inputs `it\'s` and `o\'brien.jpg`, so on those
inputs the built query text differs from the claimed (escaped) one. -/
theorem query_builders_quote_escaping
    (stage_name file_path prompt model timestamp filename : String) :
    SnowflakeAIAnalyzer.analyze_image_query stage_name file_path prompt model =
      String.join (SnowflakeAIAnalyzer.analyze_image_query_parts
        stage_name file_path prompt model) ∧
    (SnowflakeAIAnalyzer.analyze_image_query_parts stage_name file_path prompt model)[3]? =
      some (pyEscapeQuotes file_path) ∧
    (SnowflakeAIAnalyzer.analyze_image_query_parts stage_name file_path prompt model)[6]? =
      some "\') d\n                WHERE d.RELATIVE_PATH = \'" ∧
    (SnowflakeAIAnalyzer.analyze_image_query_parts stage_name file_path prompt model)[7]? =
      some (pyEscapeQuotes file_path) ∧
    (SnowflakeAIAnalyzer.analyze_image_query_parts stage_name file_path prompt model)[10]? =
      some "\',\n                            prompt => PROMPT(\'" ∧
    (SnowflakeAIAnalyzer.analyze_image_query_parts stage_name file_path prompt model)[11]? =
      some prompt ∧
    ((SnowflakeAIAnalyzer.analyze_image_query_parts stage_name file_path prompt
        model)[12]?).map (fun s => s.toList.take 7) = some "\', img)".toList ∧
    StreamlitApp.analyze_query timestamp filename prompt model =
      String.join (StreamlitApp.analyze_query_parts timestamp filename prompt model) ∧
    (StreamlitApp.analyze_query_parts timestamp filename prompt model)[7]? =
      some (pyEscapeQuotes prompt) ∧
    ((StreamlitApp.analyze_query_parts timestamp filename prompt model)[8]?).map
        (fun s => s.toList.take 51) =
      some "\'                      AS ai_complete_prompt_tmpl,\n".toList ∧
    (StreamlitApp.analyze_query_parts timestamp filename prompt model)[14]? =
      some "\') d\n            WHERE d.RELATIVE_PATH = \'" ∧
    (StreamlitApp.analyze_query_parts timestamp filename prompt model)[15]? =
      some ("temp_" ++ timestamp ++ "_" ++ filename) ∧
    ((StreamlitApp.analyze_query_parts timestamp filename prompt model)[16]?).map
        (fun s => s.toList.take 22) =
      some "\'\n            LIMIT 1\n".toList ∧
    pyEscapeQuotes "it\'s" = "it\'\'s" ∧
    pyEscapeQuotes "o\'brien.jpg" = "o\'\'brien.jpg" ∧
    "it\'\'s" ≠ "it\'s" ∧
    "o\'\'brien.jpg" ≠ "o\'brien.jpg" := by
  refine ⟨rfl, rfl, rfl, rfl, rfl, rfl, rfl, rfl, rfl, rfl, rfl, rfl, rfl, rfl, rfl,
    by decide, by decide⟩

/-- C3 counterexample: the duplicated `validate_image` in `streamlit_app.py`
STOPS at the first violated check.  A 20 MB file named `a.txt` under a
general-class model violates both the format check and the size check, yet the
function returns only the format message; the second conjunct shows the size
check is indeed also violated at this input. -/
theorem streamlit_validate_image_short_circuits :
    StreamlitApp.validate_image ⟨"a.txt", 20971520, some (100, 100)⟩ "openai-gpt-4.1" =
      (false, StreamlitApp.VMsg.unsupportedFormat) ∧
    ((20971520 : ℕ) : ℚ) / (1024 * 1024) > Config.MAX_SIZE_MB_GENERAL := by
  refine ⟨by decide, ?_⟩
  norm_num [Config.MAX_SIZE_MB_GENERAL]

/-- C3 (amended): `ImageValidator.validate_image` (`validators.py`) evaluates
all applicable checks and reports every violated check's message together in
one outcome, succeeding exactly when no check is violated; the duplicated
`validate_image` in `streamlit_app.py` instead returns at the first violation
(see the counterexample). -/
theorem validators_validate_image_collects_all (f : UploadedFile) (model_name : String) :
    (String.mk ((pySplitext f.name.toList).2.map Char.toLower) ∉ Config.SUPPORTED_FORMATS →
      VError.unsupportedFormat ∈ (ImageValidator.validate_image f model_name).2) ∧
    ((f.size : ℚ) / (1024 * 1024) >
        (if model_name ∈ Config.CLAUDE_MODELS then Config.MAX_SIZE_MB_CLAUDE
         else Config.MAX_SIZE_MB_GENERAL) →
      VError.fileTooLarge ∈ (ImageValidator.validate_image f model_name).2) ∧
    (∀ w h, model_name ∈ Config.CLAUDE_MODELS → f.image = some (w, h) →
      (w > Config.MAX_RESOLUTION_CLAUDE ∨ h > Config.MAX_RESOLUTION_CLAUDE) →
      VError.resolutionExceeded ∈ (ImageValidator.validate_image f model_name).2) ∧
    (model_name ∈ Config.CLAUDE_MODELS → f.image = Option.none →
      VError.cannotReadImage ∈ (ImageValidator.validate_image f model_name).2) ∧
    ((ImageValidator.validate_image f model_name).1 = true ↔
      (ImageValidator.validate_image f model_name).2 = []) := by
  simp only [ImageValidator.validate_image]
  refine ⟨?_, ?_, ?_, ?_, ?_⟩
  · intro h
    split_ifs <;> simp_all [List.mem_append]
  · intro h
    split_ifs <;> simp_all [List.mem_append]
  · intro w h hm him hwh
    rw [him]
    split_ifs <;> simp_all [List.mem_append]
  · intro hm him
    rw [him]
    split_ifs <;> simp_all [List.mem_append]
  · split_ifs <;> simp_all [List.mem_append]

/-- Witness for C3 (amended): a file violating format, size and resolution at
once has all three messages reported together by `ImageValidator`. -/
theorem validators_validate_image_collects_all_witness :
    VError.unsupportedFormat ∈
      (ImageValidator.validate_image ⟨"b.txt", 20971520, some (9000, 100)⟩
        "claude-4-sonnet").2 ∧
    VError.fileTooLarge ∈
      (ImageValidator.validate_image ⟨"b.txt", 20971520, some (9000, 100)⟩
        "claude-4-sonnet").2 ∧
    VError.resolutionExceeded ∈
      (ImageValidator.validate_image ⟨"b.txt", 20971520, some (9000, 100)⟩
        "claude-4-sonnet").2 := by
  have h := validators_validate_image_collects_all
    ⟨"b.txt", 20971520, some (9000, 100)⟩ "claude-4-sonnet"
  refine ⟨h.1 (by decide), h.2.1 ?_, h.2.2.1 9000 100 (by decide) rfl (by decide)⟩
  have hm : "claude-4-sonnet" ∈ Config.CLAUDE_MODELS := by decide
  rw [if_pos hm]
  norm_num [Config.MAX_SIZE_MB_CLAUDE]

/-- C6: for a Claude-class model and decodable dimensions, the resolution
violation is reported exactly when width or height exceeds the fixed
8000-pixel bound — so a submission at exactly 8000×8000 passes the
resolution check. -/
theorem validate_image_resolution_boundary (f : UploadedFile) (model_name : String)
    (w h : Nat) (hm : model_name ∈ Config.CLAUDE_MODELS) (him : f.image = some (w, h)) :
    VError.resolutionExceeded ∈ (ImageValidator.validate_image f model_name).2 ↔
      (w > Config.MAX_RESOLUTION_CLAUDE ∨ h > Config.MAX_RESOLUTION_CLAUDE) := by
  simp only [ImageValidator.validate_image, him]
  split_ifs <;> simp_all [List.mem_append]

/-- Witness for C6: at exactly the 8000×8000 bound no resolution violation is
reported. -/
theorem validate_image_resolution_boundary_witness :
    VError.resolutionExceeded ∉
      (ImageValidator.validate_image ⟨"a.jpg", 1048576, some (8000, 8000)⟩
        "claude-4-sonnet").2 := by
  have h := validate_image_resolution_boundary
    ⟨"a.jpg", 1048576, some (8000, 8000)⟩ "claude-4-sonnet" 8000 8000 (by decide) rfl
  intro hmem
  rcases h.mp hmem with h' | h' <;> exact absurd h' (by decide)

/-- C9: under a general-class (non-Claude) model, `ImageValidator.validate_image`
never decodes the image bytes: a file with a supported extension and a size
within the general limit passes validation even when its bytes are not a
decodable image (`f.image = none`). -/
theorem validate_image_general_no_decode (f : UploadedFile) (model_name : String)
    (hm : model_name ∉ Config.CLAUDE_MODELS)
    (hext : String.mk ((pySplitext f.name.toList).2.map Char.toLower) ∈
      Config.SUPPORTED_FORMATS)
    (hsize : ¬((f.size : ℚ) / (1024 * 1024) > Config.MAX_SIZE_MB_GENERAL))
    (_himg : f.image = Option.none) :
    ImageValidator.validate_image f model_name = (true, []) := by
  simp only [String.toList] at hext
  simp [ImageValidator.validate_image, hext, hm, hsize]

/-- Witness for C9: an undecodable 1 MB `a.jpg` with a general-class model
passes validation. -/
theorem validate_image_general_no_decode_witness :
    ImageValidator.validate_image ⟨"a.jpg", 1048576, Option.none⟩ "openai-gpt-4.1" =
      (true, []) := by
  refine validate_image_general_no_decode _ _ (by decide) (by decide) ?_ rfl
  norm_num [Config.MAX_SIZE_MB_GENERAL]

/-! ## Sanitize-filename lemmas -/

/-- Membership is preserved from `dropWhile` back to the original list. -/
theorem mem_of_dropWhile {c : Char} {p : Char → Bool} {l : List Char}
    (h : c ∈ l.dropWhile p) : c ∈ l :=
  (List.dropWhile_sublist (l := l) p).mem h

/-- Every character produced by `subNonWord` is a word character or a hyphen. -/
theorem mem_subNonWord {c : Char} {s : List Char} (h : c ∈ subNonWord s) :
    (isWordChar c || c == '-') = true := by
  simp only [subNonWord, List.mem_map] at h
  obtain ⟨a, -, rfl⟩ := h
  by_cases ha : (isWordChar a || a == '-') = true
  · rw [if_pos ha]
    exact ha
  · rw [if_neg ha]
    decide

/-- Collapsing underscore runs only removes characters. -/
theorem mem_collapseUnderscores : ∀ (s : List Char) (c : Char),
    c ∈ collapseUnderscores s → c ∈ s := by
  intro s
  induction s with
  | nil => simp [collapseUnderscores]
  | cons a rest ih =>
    intro c h
    cases rest with
    | nil => simpa [collapseUnderscores] using h
    | cons b t =>
      by_cases hc : (a == '_' && b == '_') = true
      · rw [show collapseUnderscores (a :: b :: t) = collapseUnderscores (b :: t) by
          simp [collapseUnderscores, hc]] at h
        exact List.mem_cons_of_mem a (ih c h)
      · rw [show collapseUnderscores (a :: b :: t) = a :: collapseUnderscores (b :: t) by
          simp [collapseUnderscores, hc]] at h
        rcases List.mem_cons.mp h with rfl | h'
        · exact List.mem_cons_self _ _
        · exact List.mem_cons_of_mem a (ih c h')

/-- Trailing-underscore removal only removes characters. -/
theorem mem_stripTrailU : ∀ (s : List Char) (c : Char), c ∈ stripTrailU s → c ∈ s := by
  intro s
  induction s with
  | nil => simp [stripTrailU]
  | cons a rest ih =>
    intro c h
    simp only [stripTrailU] at h
    split at h
    · simp at h
    · rcases List.mem_cons.mp h with rfl | h'
      · exact List.mem_cons_self _ _
      · exact List.mem_cons_of_mem a (ih c h')

/-- The head surviving `dropWhile` fails the predicate. -/
theorem dropWhile_head_not {p : Char → Bool} : ∀ (s : List Char) {c : Char},
    (s.dropWhile p).head? = some c → p c = false := by
  intro s
  induction s with
  | nil => intro c h; simp [List.dropWhile] at h
  | cons a rest ih =>
    intro c h
    by_cases ha : p a = true
    · rw [List.dropWhile_cons_of_pos ha] at h
      exact ih h
    · rw [List.dropWhile_cons_of_neg ha] at h
      simp only [List.head?_cons, Option.some.injEq] at h
      subst h
      exact Bool.not_eq_true _ ▸ ha

/-- Trailing-underscore removal keeps the head of a nonempty result. -/
theorem stripTrailU_nil_or_head : ∀ (s : List Char),
    stripTrailU s = [] ∨ (stripTrailU s).head? = s.head? := by
  intro s
  cases s with
  | nil => exact Or.inl rfl
  | cons a rest =>
    simp only [stripTrailU]
    split
    · exact Or.inl rfl
    · exact Or.inr rfl

/-- After trailing-underscore removal the last character is not an underscore. -/
theorem stripTrailU_getLast_ne : ∀ (s : List Char) {c : Char},
    (stripTrailU s).getLast? = some c → c ≠ '_' := by
  intro s
  induction s with
  | nil => intro c h; simp [stripTrailU] at h
  | cons a rest ih =>
    intro c h
    simp only [stripTrailU] at h
    split at h
    · simp at h
    · rename_i hcond
      cases hr : stripTrailU rest with
      | nil =>
        rw [hr] at h
        simp only [List.getLast?_singleton, Option.some.injEq] at h
        subst h
        simp [hr, List.isEmpty_nil] at hcond
        intro hc
        exact hcond (by simp [hc])
      | cons b t =>
        rw [hr, List.getLast?_cons_cons] at h
        exact ih (hr ▸ h)

/-- Adjacent-underscore freedom passes to the tail. -/
theorem noDoubleU_tail {a : Char} {l : List Char} (h : noDoubleU (a :: l) = true) :
    noDoubleU l = true := by
  cases l with
  | nil => rfl
  | cons b t =>
    simp only [noDoubleU, Bool.and_eq_true] at h
    exact h.2

/-- Adjacent-underscore freedom is preserved by `dropWhile`. -/
theorem noDoubleU_dropWhile {p : Char → Bool} : ∀ (s : List Char),
    noDoubleU s = true → noDoubleU (s.dropWhile p) = true := by
  intro s
  induction s with
  | nil => intro h; simpa using h
  | cons a rest ih =>
    intro h
    by_cases ha : p a = true
    · rw [List.dropWhile_cons_of_pos ha]
      exact ih (noDoubleU_tail h)
    · rwa [List.dropWhile_cons_of_neg ha]

/-- Collapsing underscore runs keeps the first character. -/
theorem collapse_cons : ∀ (t : List Char) (c : Char),
    ∃ r, collapseUnderscores (c :: t) = c :: r := by
  intro t
  induction t with
  | nil => exact fun c => ⟨[], rfl⟩
  | cons b t' ih =>
    intro c
    by_cases hc : (c == '_' && b == '_') = true
    · obtain ⟨r, hr⟩ := ih b
      simp only [Bool.and_eq_true, beq_iff_eq] at hc
      obtain ⟨rfl, rfl⟩ := hc
      exact ⟨r, by simp [collapseUnderscores, hr]⟩
    · exact ⟨collapseUnderscores (b :: t'), by simp [collapseUnderscores, hc]⟩

/-- Collapsing underscore runs leaves no two adjacent underscores. -/
theorem noDoubleU_collapse : ∀ (s : List Char),
    noDoubleU (collapseUnderscores s) = true := by
  intro s
  induction s with
  | nil => rfl
  | cons a rest ih =>
    cases rest with
    | nil => rfl
    | cons b t =>
      by_cases hc : (a == '_' && b == '_') = true
      · rw [show collapseUnderscores (a :: b :: t) = collapseUnderscores (b :: t) by
          simp [collapseUnderscores, hc]]
        exact ih
      · rw [show collapseUnderscores (a :: b :: t) = a :: collapseUnderscores (b :: t) by
          simp [collapseUnderscores, hc]]
        obtain ⟨r, hr⟩ := collapse_cons t b
        rw [hr]
        simp only [noDoubleU, Bool.and_eq_true]
        refine ⟨by rw [Bool.eq_false_iff.mpr hc]; rfl, ?_⟩
        rw [← hr]
        exact ih

/-- Adjacent-underscore freedom is preserved by trailing-underscore removal. -/
theorem stripTrailU_noDouble : ∀ (s : List Char),
    noDoubleU s = true → noDoubleU (stripTrailU s) = true := by
  intro s
  induction s with
  | nil => intro _; rfl
  | cons a rest ih =>
    intro h
    simp only [stripTrailU]
    split
    · rfl
    · cases hr : stripTrailU rest with
      | nil => rfl
      | cons b t =>
        have h2 : noDoubleU (b :: t) = true := by
          have hwhole := ih (noDoubleU_tail h)
          rwa [hr] at hwhole
        have hb : rest.head? = some b := by
          rcases stripTrailU_nil_or_head rest with h0 | h0
          · rw [h0] at hr; simp at hr
          · rw [hr] at h0; exact h0.symm
        have h1 : (!(a == '_' && b == '_')) = true := by
          cases rest with
          | nil => simp at hb
          | cons x rest' =>
            simp only [List.head?_cons, Option.some.injEq] at hb
            subst hb
            simp only [noDoubleU, Bool.and_eq_true] at h
            exact h.1
        simp only [noDoubleU, Bool.and_eq_true]
        exact ⟨h1, h2⟩

/-- The extension returned by `pySplitext` is empty or a dot followed by
dot-free text. -/
theorem pySplitext_ext (s : List Char) :
    (pySplitext s).2 = [] ∨
      ∃ t, (pySplitext s).2 = '.' :: t ∧ ∀ c ∈ t, c ≠ '.' := by
  simp only [pySplitext]
  split_ifs with h1 h2 h3
  · exact Or.inl rfl
  · exact Or.inl rfl
  · exact Or.inl rfl
  · refine Or.inr ⟨(s.reverse.takeWhile (· != '.')).reverse, rfl, ?_⟩
    intro c hc
    have hp := List.mem_takeWhile_imp (List.mem_reverse.mp hc)
    simpa using hp

/-- Lower-casing maps only the dot to a dot. -/
theorem toLower_dot {c : Char} (h : c.toLower = '.') : c = '.' := by
  unfold Char.toLower at h
  simp only [] at h
  by_cases hn : c.toNat ≥ 65 ∧ c.toNat ≤ 90
  · rw [if_pos hn] at h
    exfalso
    obtain ⟨hn1, hn2⟩ := hn
    set m := c.toNat with hm
    interval_cases m <;> exact absurd h (by decide)
  · rwa [if_neg hn] at h

/-- After `strip(\'_\')` the first character is not an underscore. -/
theorem stripUnderscores_head_ne (s : List Char) {c : Char}
    (h : (stripUnderscores s).head? = some c) : c ≠ '_' := by
  unfold stripUnderscores at h
  rcases stripTrailU_nil_or_head (s.dropWhile (· == '_')) with h0 | h0
  · rw [h0] at h; simp at h
  · rw [h0] at h
    have hp := dropWhile_head_not _ h
    simpa using hp

/-- C2 (amended): for every ASCII filename, the output of `sanitize_filename`
splits as base ++ extension where the base consists only of alphanumerics,
hyphens and underscores with no leading, trailing, or adjacent underscores,
the extension is empty or a single dot followed by dot-free text, and the
whole output carries at most one dot.  (The extension\'s non-dot characters
are only lower-cased, NOT restricted to the alphanumeric/hyphen/underscore
set — that restriction, asserted by the claim for the whole output, fails;
see the counterexample.)  The ASCII hypothesis confines the statement to
inputs on which `isWordChar` agrees with Python\'s Unicode-aware `\\w`. -/
theorem sanitize_filename_sanitized (filename : String)
    (_hascii : ∀ c ∈ filename.toList, c.toNat < 128) :
    ∃ base ext : List Char,
      (sanitize_filename filename).toList = base ++ ext ∧
      (∀ c ∈ base, c.isAlphanum = true ∨ c = '-' ∨ c = '_') ∧
      base.head? ≠ some '_' ∧
      base.getLast? ≠ some '_' ∧
      noDoubleU base = true ∧
      (ext = [] ∨ ∃ t, ext = '.' :: t ∧ ∀ c ∈ t, c ≠ '.') ∧
      (sanitize_filename filename).toList.count '.' ≤ 1 := by
  have hbase : ∀ c ∈ stripUnderscores (collapseUnderscores (subNonWord
      (pySplitext filename.toList).1)), c.isAlphanum = true ∨ c = '-' ∨ c = '_' := by
    intro c hc
    have h1 : c ∈ (collapseUnderscores (subNonWord (pySplitext filename.toList).1)).dropWhile
        (· == '_') := mem_stripTrailU _ c hc
    have h2 := mem_of_dropWhile h1
    have h3 := mem_collapseUnderscores _ c h2
    have h4 := mem_subNonWord h3
    simp only [isWordChar, Bool.or_eq_true, beq_iff_eq] at h4
    tauto
  refine ⟨stripUnderscores (collapseUnderscores (subNonWord (pySplitext filename.toList).1)),
    (pySplitext filename.toList).2.map Char.toLower, rfl, hbase, ?_, ?_, ?_, ?_, ?_⟩
  · intro heq
    exact stripUnderscores_head_ne _ heq rfl
  · intro heq
    exact stripTrailU_getLast_ne _ heq rfl
  · exact stripTrailU_noDouble _ (noDoubleU_dropWhile _ (noDoubleU_collapse _))
  · rcases pySplitext_ext filename.toList with h | ⟨t, ht, hnd⟩
    · left
      rw [h]
      rfl
    · right
      refine ⟨t.map Char.toLower, ?_, ?_⟩
      · rw [ht, List.map_cons, show '.'.toLower = '.' from rfl]
      · intro c hc hcdot
        obtain ⟨a, ha, rfl⟩ := List.mem_map.mp hc
        exact hnd a ha (toLower_dot hcdot)
  · show ((stripUnderscores (collapseUnderscores (subNonWord
        (pySplitext filename.toList).1))) ++
        (pySplitext filename.toList).2.map Char.toLower).count '.' ≤ 1
    rw [List.count_append]
    have hb0 : (stripUnderscores (collapseUnderscores (subNonWord
        (pySplitext filename.toList).1))).count '.' = 0 := by
      rw [List.count_eq_zero]
      intro hmem
      rcases hbase '.' hmem with h | h | h
      · exact absurd h (by decide)
      · exact absurd h (by decide)
      · exact absurd h (by decide)
    have he1 : ((pySplitext filename.toList).2.map Char.toLower).count '.' ≤ 1 := by
      rcases pySplitext_ext filename.toList with h | ⟨t, ht, hnd⟩
      · rw [h]
        simp
      · rw [ht, List.map_cons, show '.'.toLower = '.' from rfl]
        have ht0 : (t.map Char.toLower).count '.' = 0 := by
          rw [List.count_eq_zero]
          intro hmem
          obtain ⟨a, ha, heq⟩ := List.mem_map.mp hmem
          exact hnd a ha (toLower_dot heq)
        simp [List.count_cons, ht0]
    omega

/-- C2 counterexample: `sanitize_filename` does not restrict the characters of
the extension: on `photo.j+pg` it returns the input unchanged, whose character
`+` is neither alphanumeric, hyphen, underscore, nor the extension dot. -/
theorem sanitize_filename_counterexample :
    sanitize_filename "photo.j+pg" = "photo.j+pg" ∧
    '+' ∈ (sanitize_filename "photo.j+pg").toList ∧
    ¬('+'.isAlphanum = true ∨ '+' = '-' ∨ '+' = '_' ∨ '+' = '.') := by decide

/-- Witness for C2 (amended) at the concrete ASCII input `My Photo (1).JPG`,
whose sanitized form is `My_Photo_1.jpg`. -/
theorem sanitize_filename_sanitized_witness :
    sanitize_filename "My Photo (1).JPG" = "My_Photo_1.jpg" ∧
    (∃ base ext : List Char,
      (sanitize_filename "My Photo (1).JPG").toList = base ++ ext ∧
      (∀ c ∈ base, c.isAlphanum = true ∨ c = '-' ∨ c = '_') ∧
      base.head? ≠ some '_' ∧
      base.getLast? ≠ some '_' ∧
      noDoubleU base = true ∧
      (ext = [] ∨ ∃ t, ext = '.' :: t ∧ ∀ c ∈ t, c ≠ '.') ∧
      (sanitize_filename "My Photo (1).JPG").toList.count '.' ≤ 1) :=
  ⟨by decide, sanitize_filename_sanitized "My Photo (1).JPG" (by decide)⟩
